import Mathlib

/-!
# Verification of the bonk_escrow_final Anchor program

Shallow embedding of `programs/non-custodial-escrow/src/lib.rs`:
the escrow record, the `initializeEscrow`, `deposit` and `distribute`
instructions, together with the Anchor account constraints that are
relevant to the verified properties.
-/

set_option linter.unusedVariables false

namespace BonkEscrow

/-- Addresses on the ledger.  Program-derived addresses and associated
token accounts are deterministic functions of their inputs, which we
model by dedicated constructors (injective, as the derivations are
collision-free in the model). -/
inductive Pubkey where
  /-- an ordinary keypair address -/
  | key (k : Nat)
  /-- `get_associated_token_address(owner, mint)` -/
  | ata (owner : Pubkey) (mint : Pubkey)
  /-- PDA of seeds `["escrow", owner, name]` -/
  | escrowPda (owner : Pubkey) (name : String)
  /-- PDA of seeds `["vault-auth", escrowKey]` -/
  | vaultAuthPda (escrowKey : Pubkey)
deriving DecidableEq, Repr

/-- `get_associated_token_address` from `anchor_spl::associated_token`. -/
def get_associated_token_address (owner mint : Pubkey) : Pubkey :=
  Pubkey.ata owner mint

/-- The `EscrowError` enum of the program. -/
inductive EscrowError where
  | MaxContributorsReached
  | AlreadyDeposited
  | InvalidDepositAmount
  | Unauthorized
  | NotFull
  | AlreadyDistributed
  | InvalidMode
  | NameTooLong
  | MissingRecipientAta
  | NameMismatch
  | InvalidTarget
deriving DecidableEq, Repr

/-- Errors an instruction can return: the program's own `EscrowError`s,
or an error propagated from the SPL token transfer CPI (`token::transfer(...)?`). -/
inductive ProgError where
  | escrow (e : EscrowError)
  | transferFailed
deriving DecidableEq, Repr

/-- The `EscrowState` account. -/
structure EscrowState where
  owner : Pubkey
  token_mint : Pubkey
  contributors : List Pubkey
  distributed : Bool
  name : String
deriving DecidableEq, Repr

/-- One SPL-token `Transfer` CPI issued by the program. -/
structure TransferOp where
  src : Pubkey
  dest : Pubkey
  authority : Pubkey
  amount : Nat
deriving DecidableEq, Repr

/-- Address of the escrow record PDA for a given owner and name
(seeds `["escrow", owner, name]`, from the `#[account(...)]` constraints). -/
def escrowAddress (owner : Pubkey) (name : String) : Pubkey :=
  Pubkey.escrowPda owner name

/-- Address of the vault authority PDA of a record
(seeds `["vault-auth", escrow.key()]`). -/
def vaultAuthAddress (escrowKey : Pubkey) : Pubkey :=
  Pubkey.vaultAuthPda escrowKey

/-- Address of the vault token account created by `initializeEscrow`:
the associated token account of the vault authority for the record's mint. -/
def vaultAddress (owner : Pubkey) (name : String) (mint : Pubkey) : Pubkey :=
  get_associated_token_address (vaultAuthAddress (escrowAddress owner name)) mint

/-- The `initializeEscrow` definition embeds the record-creating instruction of the program.  `name.len()` in Rust counts bytes,
hence `utf8ByteSize` here. -/
def initializeEscrow (owner : Pubkey) (mint : Pubkey) (name : String) :
    Except ProgError EscrowState :=
  if name.utf8ByteSize ≤ 32 then
    Except.ok { owner := owner, token_mint := mint, contributors := [],
                distributed := false, name := name }
  else
    Except.error (ProgError.escrow EscrowError.NameTooLong)

/-- The `deposit` instruction.

`contributor` is the signing depositor; `vault_ata` is the address of the
token account the caller supplied for the `vault_ata` field of the
`Deposit` accounts struct — that field carries no Anchor constraint, so
the address is chosen freely by the caller.  `contributor_ata` on the
other hand is constrained to the depositor's associated token account
for the record's mint.  `transfer_ok` models whether the SPL transfer
CPI succeeds.  On success the new record state and the issued transfer
are returned. -/
def deposit (esc : EscrowState) (contributor : Pubkey) (vault_ata : Pubkey)
    (name : String) (amount : Nat) (transfer_ok : Bool) :
    Except ProgError (EscrowState × TransferOp) :=
  if ¬ esc.name = name then
    Except.error (ProgError.escrow EscrowError.NameMismatch)
  else if ¬ esc.contributors.length < 5 then
    Except.error (ProgError.escrow EscrowError.MaxContributorsReached)
  else if contributor ∈ esc.contributors then
    Except.error (ProgError.escrow EscrowError.AlreadyDeposited)
  else if ¬ amount = 5 then
    Except.error (ProgError.escrow EscrowError.InvalidDepositAmount)
  else if transfer_ok then
    Except.ok ({ esc with contributors := esc.contributors ++ [contributor] },
      { src := get_associated_token_address contributor esc.token_mint,
        dest := vault_ata, authority := contributor, amount := amount })
  else
    Except.error ProgError.transferFailed

/-- The recipient list computed by distribute mode 1:
`contributors.iter().cloned().filter(|c| *c != target_pubkey).collect()`. -/
def mode1Recipients (esc : EscrowState) (target_pubkey : Pubkey) : List Pubkey :=
  esc.contributors.filter (fun c => decide (¬ c = target_pubkey))

/-- The loop body of distribute mode 1: for each recipient in order,
look up its associated token account among `remaining_accounts` (failing
with `MissingRecipientAta` if absent) and issue a transfer of `share`
from the vault account signed by the vault authority. -/
def distributeLoop (remaining : List Pubkey) (mint : Pubkey)
    (vault_ata vault_auth : Pubkey) (share : Nat) :
    List Pubkey → Except ProgError (List TransferOp)
  | [] => Except.ok []
  | r :: rs =>
    let recipient_ata := get_associated_token_address r mint
    match remaining.find? (fun acc => decide (acc = recipient_ata)) with
    | none => Except.error (ProgError.escrow EscrowError.MissingRecipientAta)
    | some ata_info =>
      match distributeLoop remaining mint vault_ata vault_auth share rs with
      | Except.error e => Except.error e
      | Except.ok rest =>
        Except.ok ({ src := vault_ata, dest := ata_info,
                     authority := vault_auth, amount := share } :: rest)

/-- The `distribute` instruction.

`caller` is the signer of the `owner` account; `vault_balance` is the
`amount` field of the supplied `vault_ata` token account; `remaining`
is the list of addresses of `ctx.remaining_accounts`.  On success the
updated record and the list of issued transfers are returned.  The Rust
`match mode` with arms `0`, `1` and `_` is embedded as the equivalent
two-way equality test chain. -/
def distribute (esc : EscrowState) (caller : Pubkey) (name : String)
    (mode : Nat) (target_pubkey : Pubkey) (vault_balance : Nat)
    (vault_ata : Pubkey) (remaining : List Pubkey) :
    Except ProgError (EscrowState × List TransferOp) :=
  if ¬ esc.name = name then
    Except.error (ProgError.escrow EscrowError.NameMismatch)
  else if ¬ esc.owner = caller then
    Except.error (ProgError.escrow EscrowError.Unauthorized)
  else if esc.distributed then
    Except.error (ProgError.escrow EscrowError.AlreadyDistributed)
  else if ¬ esc.contributors.length = 5 then
    Except.error (ProgError.escrow EscrowError.NotFull)
  else if ¬ vault_balance > 0 then
    Except.error (ProgError.escrow EscrowError.InvalidMode)
  else if mode = 0 then
    if ¬ target_pubkey ∈ esc.contributors then
      Except.error (ProgError.escrow EscrowError.InvalidTarget)
    else
      match remaining.find? (fun acc =>
          decide (acc = get_associated_token_address target_pubkey esc.token_mint)) with
      | none => Except.error (ProgError.escrow EscrowError.MissingRecipientAta)
      | some ata_info =>
        Except.ok ({ esc with distributed := true },
          [{ src := vault_ata, dest := ata_info,
             authority := vaultAuthAddress (escrowAddress esc.owner name),
             amount := vault_balance }])
  else if mode = 1 then
    if ¬ (mode1Recipients esc target_pubkey).length > 0 then
      Except.error (ProgError.escrow EscrowError.InvalidMode)
    else
      match distributeLoop remaining esc.token_mint vault_ata
          (vaultAuthAddress (escrowAddress esc.owner name))
          (vault_balance / (mode1Recipients esc target_pubkey).length)
          (mode1Recipients esc target_pubkey) with
      | Except.error e => Except.error e
      | Except.ok ops => Except.ok ({ esc with distributed := true }, ops)
  else
    Except.error (ProgError.escrow EscrowError.InvalidMode)

/-- The transfer list issued by a successful mode-1 distribute call on
record `esc` (share `vault_balance / recipients.len()`, each transfer
from the supplied vault account, signed by the vault authority PDA). -/
def mode1Transfers (esc : EscrowState) (target_pubkey vault_ata : Pubkey)
    (vault_balance : Nat) : List TransferOp :=
  (mode1Recipients esc target_pubkey).map (fun r =>
    { src := vault_ata, dest := get_associated_token_address r esc.token_mint,
      authority := vaultAuthAddress (escrowAddress esc.owner esc.name),
      amount := vault_balance / (mode1Recipients esc target_pubkey).length })

/-- An operation invoked on an existing escrow record, with the
caller-chosen arguments and the environment (CPI outcome, supplied
accounts) it runs against. -/
inductive Op where
  | deposit (contributor vault_ata : Pubkey) (name : String) (amount : Nat)
      (transfer_ok : Bool)
  | distribute (caller : Pubkey) (name : String) (mode : Nat)
      (target_pubkey : Pubkey) (vault_balance : Nat) (vault_ata : Pubkey)
      (remaining : List Pubkey)

/-- The record state after running `op` on `esc`: the new state on
success, the untouched state on failure (a failed Anchor instruction
commits no account mutation). -/
def applyOp (esc : EscrowState) : Op → EscrowState
  | Op.deposit c v n a ok =>
    match deposit esc c v n a ok with
    | Except.ok (esc', _) => esc'
    | Except.error _ => esc
  | Op.distribute caller n m t b v rem =>
    match distribute esc caller n m t b v rem with
    | Except.ok (esc', _) => esc'
    | Except.error _ => esc

/-- Record states reachable from a successful `initializeEscrow` by any
sequence of `deposit` / `distribute` calls (successful or failed). -/
inductive Reachable : EscrowState → Prop where
  | init (owner mint : Pubkey) (name : String) (esc : EscrowState) :
      initializeEscrow owner mint name = Except.ok esc → Reachable esc
  | step (esc : EscrowState) (op : Op) :
      Reachable esc → Reachable (applyOp esc op)

/-- A sample record used in concrete witnesses: five distinct
contributors, not yet distributed. -/
def escFull : EscrowState :=
  { owner := Pubkey.key 0, token_mint := Pubkey.key 7,
    contributors := [Pubkey.key 1, Pubkey.key 2, Pubkey.key 3,
      Pubkey.key 4, Pubkey.key 5],
    distributed := false, name := "pool" }

/-- A remaining-accounts list holding the associated token accounts of
contributors 1, 2, 4 and 5 of `escFull`. -/
def remFour : List Pubkey :=
  [Pubkey.ata (Pubkey.key 1) (Pubkey.key 7),
   Pubkey.ata (Pubkey.key 2) (Pubkey.key 7),
   Pubkey.ata (Pubkey.key 4) (Pubkey.key 7),
   Pubkey.ata (Pubkey.key 5) (Pubkey.key 7)]

/-- A sample record with a single contributor, used in concrete witnesses. -/
def escOne : EscrowState :=
  { owner := Pubkey.key 0, token_mint := Pubkey.key 7,
    contributors := [Pubkey.key 1], distributed := false, name := "pool" }

/-- A sample record that has already been distributed. -/
def escDone : EscrowState :=
  { owner := Pubkey.key 0, token_mint := Pubkey.key 7,
    contributors := [Pubkey.key 1, Pubkey.key 2, Pubkey.key 3,
      Pubkey.key 4, Pubkey.key 5],
    distributed := true, name := "pool" }

/-! ## Inversion lemmas for the instructions -/

theorem deposit_ok_inv {esc : EscrowState} {c v : Pubkey} {nm : String}
    {a : Nat} {ok : Bool} {esc' : EscrowState} {top : TransferOp}
    (h : deposit esc c v nm a ok = Except.ok (esc', top)) :
    esc.contributors.length < 5 ∧ c ∉ esc.contributors ∧
      esc'.contributors = esc.contributors ++ [c] ∧
      esc'.distributed = esc.distributed ∧ a = 5 ∧ ok = true ∧
      esc.name = nm ∧ esc'.owner = esc.owner ∧
      esc'.token_mint = esc.token_mint ∧
      top = { src := get_associated_token_address c esc.token_mint,
              dest := v, authority := c, amount := a } := by
  unfold deposit at h
  split at h
  · exact Except.noConfusion h
  next hname =>
    split at h
    · exact Except.noConfusion h
    next hlen =>
      split at h
      · exact Except.noConfusion h
      next hmem =>
        split at h
        · exact Except.noConfusion h
        next hamt =>
          split at h
          next hok =>
            cases h
            refine ⟨by omega, hmem, rfl, rfl, by omega, hok, ?_, rfl, rfl, rfl⟩
            exact not_not.mp hname
          · exact Except.noConfusion h

theorem distribute_ok_inv {esc : EscrowState} {caller : Pubkey} {nm : String}
    {mode : Nat} {t : Pubkey} {B : Nat} {v : Pubkey} {rem : List Pubkey}
    {esc' : EscrowState} {ops : List TransferOp}
    (h : distribute esc caller nm mode t B v rem = Except.ok (esc', ops)) :
    esc' = { esc with distributed := true } ∧ esc.name = nm ∧
      esc.owner = caller ∧ esc.distributed = false ∧
      esc.contributors.length = 5 ∧ 0 < B := by
  unfold distribute at h
  split at h
  · exact Except.noConfusion h
  next hname =>
    split at h
    · exact Except.noConfusion h
    next howner =>
      split at h
      · exact Except.noConfusion h
      next hdist =>
        split at h
        · exact Except.noConfusion h
        next hlen =>
          split at h
          · exact Except.noConfusion h
          next hbal =>
            have hside : esc' = { esc with distributed := true } := by
              split at h
              · split at h
                · exact Except.noConfusion h
                · split at h
                  · exact Except.noConfusion h
                  · cases h; rfl
              · split at h
                · split at h
                  · exact Except.noConfusion h
                  · split at h
                    · exact Except.noConfusion h
                    · cases h; rfl
                · exact Except.noConfusion h
            exact ⟨hside, not_not.mp hname, not_not.mp howner,
              Bool.of_not_eq_true hdist, not_not.mp hlen, by omega⟩

/-! ## Claim C1 -/

/-- Claim C1: every escrow record reachable by any sequence of
create/deposit/distribute operations has at most 5 contributors and no
duplicate contributor entries; every operation preserves this invariant. -/
theorem c1_contributors_bounded_and_nodup (esc : EscrowState)
    (h : Reachable esc) :
    esc.contributors.length ≤ 5 ∧ esc.contributors.Nodup := by
  induction h with
  | init owner mint name esc hinit =>
    unfold initializeEscrow at hinit
    split at hinit
    · cases hinit; exact ⟨by simp, by simp⟩
    · exact Except.noConfusion hinit
  | step esc op hr ih =>
    cases op with
    | deposit c v n a ok =>
      simp only [applyOp]
      cases hd : deposit esc c v n a ok with
      | error e => exact ih
      | ok p =>
        obtain ⟨esc', top⟩ := p
        obtain ⟨hlen, hmem, hcontrib, -⟩ := deposit_ok_inv hd
        show esc'.contributors.length ≤ 5 ∧ esc'.contributors.Nodup
        rw [hcontrib]
        constructor
        · simp only [List.length_append, List.length_singleton]; omega
        · simp [List.nodup_append, ih.2, hmem]
    | distribute caller n m t b v rem =>
      simp only [applyOp]
      cases hd : distribute esc caller n m t b v rem with
      | error e => exact ih
      | ok p =>
        obtain ⟨esc', ops⟩ := p
        obtain ⟨hesc', -⟩ := distribute_ok_inv hd
        show esc'.contributors.length ≤ 5 ∧ esc'.contributors.Nodup
        rw [hesc']
        exact ih

/-- Witness for C1: the invariant holds at a concrete reachable state,
obtained by initializing a record and depositing once. -/
theorem c1_contributors_bounded_and_nodup_witness :
    ({ owner := Pubkey.key 0, token_mint := Pubkey.key 7,
       contributors := [Pubkey.key 1], distributed := false,
       name := "pool" } : EscrowState).contributors.length ≤ 5 ∧
    ({ owner := Pubkey.key 0, token_mint := Pubkey.key 7,
       contributors := [Pubkey.key 1], distributed := false,
       name := "pool" } : EscrowState).contributors.Nodup :=
  c1_contributors_bounded_and_nodup _
    (Reachable.step
      { owner := Pubkey.key 0, token_mint := Pubkey.key 7,
        contributors := [], distributed := false, name := "pool" }
      (Op.deposit (Pubkey.key 1) (Pubkey.key 50) "pool" 5 true)
      (Reachable.init (Pubkey.key 0) (Pubkey.key 7) "pool" _ (by rfl)))

/-! ## Helper lemmas for the mode-1 loop -/

theorem find_key_of_mem {a : Pubkey} {l : List Pubkey} (h : a ∈ l) :
    l.find? (fun x => decide (x = a)) = some a := by
  induction l with
  | nil => cases h
  | cons b t ih =>
    rcases List.mem_cons.mp h with rfl | ht
    · simp [List.find?_cons]
    · by_cases hb : b = a
      · subst hb; simp [List.find?_cons]
      · have hd : decide (b = a) = false := by simp [hb]
        simp only [List.find?_cons, hd]
        exact ih ht

theorem distributeLoop_all_present (remaining : List Pubkey)
    (mint vault_ata vault_auth : Pubkey) (share : Nat) (rs : List Pubkey)
    (h : ∀ r ∈ rs, get_associated_token_address r mint ∈ remaining) :
    distributeLoop remaining mint vault_ata vault_auth share rs =
      Except.ok (rs.map (fun r =>
        { src := vault_ata, dest := get_associated_token_address r mint,
          authority := vault_auth, amount := share })) := by
  induction rs with
  | nil => rfl
  | cons r rs ih =>
    have hr : get_associated_token_address r mint ∈ remaining :=
      h r (List.mem_cons_self r rs)
    have hrest := ih (fun x hx => h x (List.mem_cons_of_mem r hx))
    simp only [distributeLoop, find_key_of_mem hr, hrest, List.map_cons]

theorem distributeLoop_error_is_missing_ata {remaining : List Pubkey}
    {mint vault_ata vault_auth : Pubkey} {share : Nat} {rs : List Pubkey}
    {e : ProgError}
    (h : distributeLoop remaining mint vault_ata vault_auth share rs =
      Except.error e) :
    e = ProgError.escrow EscrowError.MissingRecipientAta := by
  induction rs with
  | nil => exact Except.noConfusion h
  | cons r rs ih =>
    simp only [distributeLoop] at h
    split at h
    · cases h; rfl
    · split at h
      next heq => cases h; exact ih heq
      · exact Except.noConfusion h

theorem length_filter_ne_of_nodup {l : List Pubkey} {t : Pubkey}
    (hnd : l.Nodup) :
    (l.filter (fun c => decide (¬ c = t))).length =
      if t ∈ l then l.length - 1 else l.length := by
  induction l with
  | nil => simp
  | cons a l ih =>
    obtain ⟨ha, hl⟩ := List.nodup_cons.mp hnd
    have ihl := ih hl
    by_cases hat : a = t
    · subst hat
      rw [if_pos (List.mem_cons_self a l)]
      rw [if_neg ha] at ihl
      have hf : (a :: l).filter (fun c => decide (¬ c = a)) =
          l.filter (fun c => decide (¬ c = a)) := by
        simp [List.filter_cons]
      rw [hf, ihl, List.length_cons]
      omega
    · have hta : ¬ t = a := fun h => hat h.symm
      have hf : (a :: l).filter (fun c => decide (¬ c = t)) =
          a :: l.filter (fun c => decide (¬ c = t)) := by
        simp [List.filter_cons, hat]
      rw [hf]
      by_cases htl : t ∈ l
      · rw [if_pos (List.mem_cons_of_mem a htl)]
        rw [if_pos htl] at ihl
        have hpos : 0 < l.length := List.length_pos.mpr
          (fun hne => by subst hne; cases htl)
        rw [List.length_cons, List.length_cons, ihl]
        omega
      · have hnotin : t ∉ a :: l := by
          rw [List.mem_cons]
          rintro (h | h)
          · exact hta h
          · exact htl h
        rw [if_neg hnotin]
        rw [if_neg htl] at ihl
        rw [List.length_cons, List.length_cons, ihl]

theorem sum_map_amount_const (l : List Pubkey) (f : Pubkey → TransferOp)
    (c : Nat) (h : ∀ r, (f r).amount = c) :
    ((l.map f).map TransferOp.amount).sum = l.length * c := by
  induction l with
  | nil => simp
  | cons a l ih =>
    rw [List.map_cons, List.map_cons, List.sum_cons, h a, ih,
      List.length_cons, Nat.succ_mul, Nat.add_comm]

/-! ## Claim C2 -/

/-- Claim C2: on a record with 5 distinct contributors and vault balance
`B > 0`, mode-1 distribute takes the recipients to be the contributors
other than `target` (4 of them when `target` is a contributor, all 5
otherwise), issues one transfer of the single precomputed share
`B / n` to each of the `n` recipients, and the total moved out of the
vault is `n * (B / n)`, leaving the remainder `B - n * (B / n)` in the
vault.  All recipient associated token accounts are assumed present
among the remaining accounts (otherwise the call fails with
`MissingRecipientAta`). -/
theorem c2_mode1_equal_split (esc : EscrowState) (target vault_ata : Pubkey)
    (B : Nat) (remaining : List Pubkey)
    (hlen : esc.contributors.length = 5) (hnd : esc.contributors.Nodup)
    (hdist : esc.distributed = false) (hB : 0 < B)
    (hata : ∀ r ∈ mode1Recipients esc target,
      get_associated_token_address r esc.token_mint ∈ remaining) :
    ((mode1Recipients esc target).length =
        if target ∈ esc.contributors then 4 else 5) ∧
    distribute esc esc.owner esc.name 1 target B vault_ata remaining =
      Except.ok ({ esc with distributed := true },
        mode1Transfers esc target vault_ata B) ∧
    (∀ op ∈ mode1Transfers esc target vault_ata B,
      op.amount = B / (mode1Recipients esc target).length) ∧
    ((mode1Transfers esc target vault_ata B).map TransferOp.amount).sum =
      (mode1Recipients esc target).length *
        (B / (mode1Recipients esc target).length) ∧
    B - ((mode1Transfers esc target vault_ata B).map TransferOp.amount).sum =
      B - (mode1Recipients esc target).length *
        (B / (mode1Recipients esc target).length) := by
  have hn : (mode1Recipients esc target).length =
      if target ∈ esc.contributors then 4 else 5 := by
    unfold mode1Recipients
    rw [length_filter_ne_of_nodup hnd, hlen]
  have hpos : (mode1Recipients esc target).length > 0 := by
    rw [hn]; split <;> omega
  have hloop := distributeLoop_all_present remaining esc.token_mint vault_ata
    (vaultAuthAddress (escrowAddress esc.owner esc.name))
    (B / (mode1Recipients esc target).length) (mode1Recipients esc target) hata
  have hsum : ((mode1Transfers esc target vault_ata B).map TransferOp.amount).sum =
      (mode1Recipients esc target).length *
        (B / (mode1Recipients esc target).length) := by
    unfold mode1Transfers
    exact sum_map_amount_const _ _ _ (fun r => rfl)
  refine ⟨hn, ?_, ?_, hsum, by rw [hsum]⟩
  · unfold distribute
    rw [if_neg (not_not_intro rfl), if_neg (not_not_intro rfl),
      if_neg (by simp [hdist]), if_neg (not_not_intro hlen),
      if_neg (not_not_intro hB), if_neg (by norm_num : ¬ (1 : Nat) = 0),
      if_pos rfl, if_neg (not_not_intro hpos), hloop]
    rfl
  · intro op hop
    unfold mode1Transfers at hop
    obtain ⟨r, hr, rfl⟩ := List.mem_map.mp hop
    rfl

/-- Witness for C2: a concrete full escrow with contributors 1..5,
vault balance 25 and excluded target contributor 3; the four remaining
contributors each receive `25 / 4 = 6` and the vault keeps `25 - 24 = 1`. -/
theorem c2_mode1_equal_split_witness :
    (escFull.contributors.length = 5 ∧ escFull.contributors.Nodup ∧
      escFull.distributed = false ∧ 0 < 25) ∧
    (mode1Recipients escFull (Pubkey.key 3)).length = 4 ∧
    distribute escFull (Pubkey.key 0) "pool" 1 (Pubkey.key 3) 25
        (Pubkey.key 90) remFour =
      Except.ok ({ escFull with distributed := true },
        mode1Transfers escFull (Pubkey.key 3) (Pubkey.key 90) 25) := by
  refine ⟨⟨by decide, by decide, by decide, by decide⟩, ?_⟩
  have h := c2_mode1_equal_split escFull (Pubkey.key 3) (Pubkey.key 90) 25
    remFour (by decide) (by decide) (by decide) (by decide) (by decide)
  exact ⟨h.1.trans (if_pos (by decide)), h.2.1⟩

/-! ## Claim C3 -/

/-- Claim C3: on a full record with vault balance `B > 0`, mode-0
distribute with a target that is a contributor (and whose associated
token account is supplied) issues a single transfer of the entire
balance `B` from the vault account to the target's associated token
account, emptying the vault; with a target that is not a contributor it
fails with `InvalidTarget` and no transfer is issued. -/
theorem c3_mode0_winner_take_all (esc : EscrowState) (target vault_ata : Pubkey)
    (B : Nat) (remaining : List Pubkey)
    (hlen : esc.contributors.length = 5) (hdist : esc.distributed = false)
    (hB : 0 < B) :
    (target ∈ esc.contributors →
      get_associated_token_address target esc.token_mint ∈ remaining →
      distribute esc esc.owner esc.name 0 target B vault_ata remaining =
        Except.ok ({ esc with distributed := true },
          [{ src := vault_ata, dest := get_associated_token_address target esc.token_mint, authority := vaultAuthAddress (escrowAddress esc.owner esc.name), amount := B }])) ∧
    (target ∉ esc.contributors →
      distribute esc esc.owner esc.name 0 target B vault_ata remaining =
        Except.error (ProgError.escrow EscrowError.InvalidTarget)) := by
  constructor
  · intro hmem hfind
    unfold distribute
    rw [if_neg (not_not_intro rfl), if_neg (not_not_intro rfl),
      if_neg (by simp [hdist]), if_neg (not_not_intro hlen),
      if_neg (not_not_intro hB), if_pos rfl, if_neg (not_not_intro hmem),
      find_key_of_mem hfind]
  · intro hmem
    unfold distribute
    rw [if_neg (not_not_intro rfl), if_neg (not_not_intro rfl),
      if_neg (by simp [hdist]), if_neg (not_not_intro hlen),
      if_neg (not_not_intro hB), if_pos rfl, if_pos hmem]

/-- Witness for C3: on the concrete full escrow with vault balance 25,
mode 0 with member target 2 transfers all 25 to the target's associated
token account, and mode 0 with non-member target 9 fails with
`InvalidTarget`. -/
theorem c3_mode0_winner_take_all_witness :
    (escFull.contributors.length = 5 ∧ escFull.distributed = false ∧
      0 < 25 ∧ Pubkey.key 2 ∈ escFull.contributors ∧
      ¬ Pubkey.key 9 ∈ escFull.contributors) ∧
    distribute escFull (Pubkey.key 0) "pool" 0 (Pubkey.key 2) 25
        (Pubkey.key 90) remFour =
      Except.ok ({ escFull with distributed := true },
        [{ src := Pubkey.key 90, dest := Pubkey.ata (Pubkey.key 2) (Pubkey.key 7), authority := Pubkey.vaultAuthPda (Pubkey.escrowPda (Pubkey.key 0) "pool"), amount := 25 }]) ∧
    distribute escFull (Pubkey.key 0) "pool" 0 (Pubkey.key 9) 25
        (Pubkey.key 90) remFour =
      Except.error (ProgError.escrow EscrowError.InvalidTarget) := by
  refine ⟨⟨by decide, by decide, by decide, by decide, by decide⟩, ?_, ?_⟩
  · exact (c3_mode0_winner_take_all escFull (Pubkey.key 2) (Pubkey.key 90) 25
      remFour (by decide) (by decide) (by decide)).1 (by decide) (by decide)
  · exact (c3_mode0_winner_take_all escFull (Pubkey.key 9) (Pubkey.key 90) 25
      remFour (by decide) (by decide) (by decide)).2 (by decide)

/-! ## Claim C4 -/

/-- Claim C4: the deposit transfer CPI must succeed for the depositor to
be recorded.  With a failing transfer the call returns an error and the
record is unmodified; conversely, a successful deposit implies the
transfer succeeded. -/
theorem c4_transfer_before_record (esc : EscrowState) (c v : Pubkey)
    (nm : String) (a : Nat) :
    (∀ out, ¬ deposit esc c v nm a false = Except.ok out) ∧
    applyOp esc (Op.deposit c v nm a false) = esc ∧
    (∀ tok out, deposit esc c v nm a tok = Except.ok out → tok = true) := by
  have hsucc : ∀ tok out, deposit esc c v nm a tok = Except.ok out →
      tok = true := by
    intro tok out h
    obtain ⟨esc', top⟩ := out
    obtain ⟨-, -, -, -, -, hok, -⟩ := deposit_ok_inv h
    exact hok
  have hfail : ∀ out, ¬ deposit esc c v nm a false = Except.ok out := by
    intro out h
    exact Bool.false_ne_true (hsucc false out h)
  refine ⟨hfail, ?_, hsucc⟩
  simp only [applyOp]
  cases hd : deposit esc c v nm a false with
  | error e => rfl
  | ok p => exact absurd hd (hfail p)

/-- Witness for C4: on a concrete record with one contributor, a deposit
whose transfer fails returns an error and leaves the record unchanged. -/
theorem c4_transfer_before_record_witness :
    deposit escOne (Pubkey.key 9) (Pubkey.key 90) "pool" 5 false =
      Except.error ProgError.transferFailed ∧
    applyOp escOne (Op.deposit (Pubkey.key 9) (Pubkey.key 90) "pool" 5 false) =
      escOne :=
  ⟨rfl, (c4_transfer_before_record escOne (Pubkey.key 9) (Pubkey.key 90)
    "pool" 5).2.1⟩

/-! ## Claim C5 -/

/-- Claim C5: the deposit preconditions are checked in source order, the
first failing check fixing the error: name match (`NameMismatch`),
contributor count below 5 (`MaxContributorsReached`), depositor not yet
a contributor (`AlreadyDeposited`), amount exactly 5
(`InvalidDepositAmount`). -/
theorem c5_deposit_check_order (esc : EscrowState) (c v : Pubkey)
    (nm : String) (a : Nat) (tok : Bool) :
    (¬ esc.name = nm →
      deposit esc c v nm a tok =
        Except.error (ProgError.escrow EscrowError.NameMismatch)) ∧
    (esc.name = nm → 5 ≤ esc.contributors.length →
      deposit esc c v nm a tok =
        Except.error (ProgError.escrow EscrowError.MaxContributorsReached)) ∧
    (esc.name = nm → esc.contributors.length < 5 → c ∈ esc.contributors →
      deposit esc c v nm a tok =
        Except.error (ProgError.escrow EscrowError.AlreadyDeposited)) ∧
    (esc.name = nm → esc.contributors.length < 5 → c ∉ esc.contributors →
      ¬ a = 5 →
      deposit esc c v nm a tok =
        Except.error (ProgError.escrow EscrowError.InvalidDepositAmount)) := by
  refine ⟨?_, ?_, ?_, ?_⟩
  · intro hname
    unfold deposit
    rw [if_pos hname]
  · intro hname hfull
    unfold deposit
    rw [if_neg (not_not_intro hname), if_pos (by omega)]
  · intro hname hlt hmem
    unfold deposit
    rw [if_neg (not_not_intro hname), if_neg (not_not_intro hlt), if_pos hmem]
  · intro hname hlt hmem ha
    unfold deposit
    rw [if_neg (not_not_intro hname), if_neg (not_not_intro hlt),
      if_neg hmem, if_pos ha]

/-- Witness for C5: each of the four deposit errors observed on a
concrete call where exactly that check is the first to fail. -/
theorem c5_deposit_check_order_witness :
    deposit escOne (Pubkey.key 9) (Pubkey.key 90) "other" 5 true =
      Except.error (ProgError.escrow EscrowError.NameMismatch) ∧
    deposit escFull (Pubkey.key 9) (Pubkey.key 90) "pool" 5 true =
      Except.error (ProgError.escrow EscrowError.MaxContributorsReached) ∧
    deposit escOne (Pubkey.key 1) (Pubkey.key 90) "pool" 5 true =
      Except.error (ProgError.escrow EscrowError.AlreadyDeposited) ∧
    deposit escOne (Pubkey.key 9) (Pubkey.key 90) "pool" 3 true =
      Except.error (ProgError.escrow EscrowError.InvalidDepositAmount) := by
  refine ⟨?_, ?_, ?_, ?_⟩
  · exact (c5_deposit_check_order escOne (Pubkey.key 9) (Pubkey.key 90)
      "other" 5 true).1 (by decide)
  · exact (c5_deposit_check_order escFull (Pubkey.key 9) (Pubkey.key 90)
      "pool" 5 true).2.1 (by decide) (by decide)
  · exact (c5_deposit_check_order escOne (Pubkey.key 1) (Pubkey.key 90)
      "pool" 5 true).2.2.1 (by decide) (by decide) (by decide)
  · exact (c5_deposit_check_order escOne (Pubkey.key 9) (Pubkey.key 90)
      "pool" 3 true).2.2.2 (by decide) (by decide) (by decide) (by decide)

/-! ## Claim C6 -/

/-- Claim C6: a distribute call whose supplied name matches the record
but whose signer is not the record owner fails with `Unauthorized`, for
every mode and target, and leaves the record unchanged (no transfer is
issued, as the call returns before reaching any transfer). -/
theorem c6_non_owner_unauthorized (esc : EscrowState) (caller : Pubkey)
    (nm : String) (mode : Nat) (target vault_ata : Pubkey) (B : Nat)
    (remaining : List Pubkey) (hname : esc.name = nm)
    (hcaller : ¬ esc.owner = caller) :
    distribute esc caller nm mode target B vault_ata remaining =
      Except.error (ProgError.escrow EscrowError.Unauthorized) ∧
    applyOp esc (Op.distribute caller nm mode target B vault_ata remaining) =
      esc := by
  have hd : distribute esc caller nm mode target B vault_ata remaining =
      Except.error (ProgError.escrow EscrowError.Unauthorized) := by
    unfold distribute
    rw [if_neg (not_not_intro hname), if_pos hcaller]
  refine ⟨hd, ?_⟩
  simp only [applyOp]
  rw [hd]

/-- Witness for C6: a non-owner signer (key 8) calling distribute on the
concrete full escrow fails with `Unauthorized` and changes nothing. -/
theorem c6_non_owner_unauthorized_witness :
    (escFull.name = "pool" ∧ ¬ escFull.owner = Pubkey.key 8) ∧
    distribute escFull (Pubkey.key 8) "pool" 1 (Pubkey.key 3) 25
        (Pubkey.key 90) remFour =
      Except.error (ProgError.escrow EscrowError.Unauthorized) ∧
    applyOp escFull (Op.distribute (Pubkey.key 8) "pool" 1 (Pubkey.key 3) 25
      (Pubkey.key 90) remFour) = escFull := by
  refine ⟨⟨by decide, by decide⟩, ?_⟩
  exact c6_non_owner_unauthorized escFull (Pubkey.key 8) "pool" 1
    (Pubkey.key 3) (Pubkey.key 90) 25 remFour (by decide) (by decide)

/-! ## Claim C7 -/

/-- Claim C7: the `distributed` flag is monotonic: once it is true, no
operation resets it; and a further distribute call on an
already-distributed record (with matching name and owner) fails with
`AlreadyDistributed`, leaving the record unchanged. -/
theorem c7_distributed_monotonic (esc : EscrowState)
    (hd : esc.distributed = true) :
    (∀ op, (applyOp esc op).distributed = true) ∧
    (∀ caller nm mode target vault_ata B remaining,
      esc.name = nm → esc.owner = caller →
      distribute esc caller nm mode target B vault_ata remaining =
        Except.error (ProgError.escrow EscrowError.AlreadyDistributed) ∧
      applyOp esc (Op.distribute caller nm mode target B vault_ata remaining) =
        esc) := by
  constructor
  · intro op
    cases op with
    | deposit c v n a tok =>
      simp only [applyOp]
      cases hdep : deposit esc c v n a tok with
      | error e => exact hd
      | ok p =>
        obtain ⟨esc', top⟩ := p
        obtain ⟨-, -, -, hflag, -⟩ := deposit_ok_inv hdep
        show esc'.distributed = true
        rw [hflag]; exact hd
    | distribute caller n m t b v rem =>
      simp only [applyOp]
      cases hdd : distribute esc caller n m t b v rem with
      | error e => exact hd
      | ok p =>
        obtain ⟨esc', ops⟩ := p
        obtain ⟨hesc', -⟩ := distribute_ok_inv hdd
        show esc'.distributed = true
        rw [hesc']
  · intro caller nm mode target vault_ata B remaining hname howner
    have herr : distribute esc caller nm mode target B vault_ata remaining =
        Except.error (ProgError.escrow EscrowError.AlreadyDistributed) := by
      unfold distribute
      rw [if_neg (not_not_intro hname), if_neg (not_not_intro howner),
        if_pos hd]
    refine ⟨herr, ?_⟩
    simp only [applyOp]
    rw [herr]

/-- Witness for C7: on the concrete already-distributed record, a deposit
attempt leaves the flag true and a second distribute fails with
`AlreadyDistributed`. -/
theorem c7_distributed_monotonic_witness :
    escDone.distributed = true ∧
    (applyOp escDone
      (Op.deposit (Pubkey.key 9) (Pubkey.key 90) "pool" 5 true)).distributed =
      true ∧
    distribute escDone (Pubkey.key 0) "pool" 0 (Pubkey.key 2) 25
        (Pubkey.key 90) remFour =
      Except.error (ProgError.escrow EscrowError.AlreadyDistributed) := by
  refine ⟨by decide, ?_, ?_⟩
  · exact (c7_distributed_monotonic escDone (by decide)).1
      (Op.deposit (Pubkey.key 9) (Pubkey.key 90) "pool" 5 true)
  · exact ((c7_distributed_monotonic escDone (by decide)).2 (Pubkey.key 0)
      "pool" 0 (Pubkey.key 2) (Pubkey.key 90) 25 remFour (by decide)
      (by decide)).1

/-! ## Claim C8 -/

/-- Counterexample to C8 as stated: on a concrete full record, a deposit
call with amount 3 (≠ 5) fails with `MaxContributorsReached`, not with
`InvalidDepositAmount` — the amount check is last, so other record
state does determine the error. -/
theorem c8_counterexample_error_not_invalid_amount :
    deposit escFull (Pubkey.key 9) (Pubkey.key 90) "pool" 3 true =
      Except.error (ProgError.escrow EscrowError.MaxContributorsReached) ∧
    ¬ ProgError.escrow EscrowError.MaxContributorsReached =
        ProgError.escrow EscrowError.InvalidDepositAmount :=
  ⟨rfl, by decide⟩

/-- Claim C8 (amended): a deposit call with amount ≠ 5 never succeeds and
leaves the record unchanged; the error is `InvalidDepositAmount` exactly
when the earlier name, capacity and double-deposit checks all pass. -/
theorem c8_invalid_amount_never_succeeds (esc : EscrowState) (c v : Pubkey)
    (nm : String) (a : Nat) (tok : Bool) (ha : ¬ a = 5) :
    (∀ out, ¬ deposit esc c v nm a tok = Except.ok out) ∧
    applyOp esc (Op.deposit c v nm a tok) = esc ∧
    (esc.name = nm → esc.contributors.length < 5 → c ∉ esc.contributors →
      deposit esc c v nm a tok =
        Except.error (ProgError.escrow EscrowError.InvalidDepositAmount)) := by
  have hfail : ∀ out, ¬ deposit esc c v nm a tok = Except.ok out := by
    intro out h
    obtain ⟨esc', top⟩ := out
    obtain ⟨-, -, -, -, ha5, -⟩ := deposit_ok_inv h
    exact ha ha5
  refine ⟨hfail, ?_, ?_⟩
  · simp only [applyOp]
    cases hdep : deposit esc c v nm a tok with
    | error e => rfl
    | ok p => exact absurd hdep (hfail p)
  · intro hname hlt hmem
    unfold deposit
    rw [if_neg (not_not_intro hname), if_neg (not_not_intro hlt),
      if_neg hmem, if_pos ha]

/-- Witness for C8 (amended): a concrete deposit of amount 3 on a
non-full record fails with `InvalidDepositAmount` and changes nothing. -/
theorem c8_invalid_amount_never_succeeds_witness :
    applyOp escOne (Op.deposit (Pubkey.key 9) (Pubkey.key 90) "pool" 3 true) =
      escOne ∧
    deposit escOne (Pubkey.key 9) (Pubkey.key 90) "pool" 3 true =
      Except.error (ProgError.escrow EscrowError.InvalidDepositAmount) := by
  have h := c8_invalid_amount_never_succeeds escOne (Pubkey.key 9)
    (Pubkey.key 90) "pool" 3 true (by decide)
  exact ⟨h.2.1, h.2.2 (by decide) (by decide) (by decide)⟩

/-! ## Claim C9 -/

/-- Claim C9 fails on the code: the `Deposit` accounts struct leaves
`vault_ata` unconstrained (unlike `Initialize`, which ties the vault to
the vault-authority PDA), so a deposit can name an arbitrary token
account as the destination.  Here a deposit succeeds — recording the
depositor as a contributor — while the 5 tokens are transferred to
account `key 99`, which is not the record's vault. -/
theorem c9_deposit_vault_unconstrained :
    deposit escOne (Pubkey.key 9) (Pubkey.key 99) "pool" 5 true =
      Except.ok ({ escOne with contributors := [Pubkey.key 1, Pubkey.key 9] },
        { src := Pubkey.ata (Pubkey.key 9) (Pubkey.key 7), dest := Pubkey.key 99, authority := Pubkey.key 9, amount := 5 }) ∧
    ¬ Pubkey.key 99 = vaultAddress escOne.owner escOne.name escOne.token_mint :=
  ⟨rfl, by decide⟩

/-! ## Claim C10 -/

/-- Claim C10: under the no-duplicates invariant on a full record, the
mode-1 recipient set has size 4 or 5, hence is nonempty: the
`InvalidMode` guard on an empty recipient set cannot fire, the division
divisor is nonzero, and (with a positive vault balance) the call never
returns `InvalidMode`. -/
theorem c10_mode1_invalid_mode_unreachable (esc : EscrowState)
    (target vault_ata : Pubkey) (B : Nat) (remaining : List Pubkey)
    (hnd : esc.contributors.Nodup) (hlen : esc.contributors.length = 5)
    (hdist : esc.distributed = false) (hB : 0 < B) :
    ((mode1Recipients esc target).length = 4 ∨
      (mode1Recipients esc target).length = 5) ∧
    ¬ (mode1Recipients esc target).length = 0 ∧
    ¬ distribute esc esc.owner esc.name 1 target B vault_ata remaining =
        Except.error (ProgError.escrow EscrowError.InvalidMode) := by
  have hn : (mode1Recipients esc target).length =
      if target ∈ esc.contributors then 4 else 5 := by
    unfold mode1Recipients
    rw [length_filter_ne_of_nodup hnd, hlen]
  have h45 : (mode1Recipients esc target).length = 4 ∨
      (mode1Recipients esc target).length = 5 := by
    rw [hn]
    split
    · exact Or.inl rfl
    · exact Or.inr rfl
  have hpos : (mode1Recipients esc target).length > 0 := by
    rcases h45 with h | h <;> omega
  refine ⟨h45, by omega, ?_⟩
  unfold distribute
  rw [if_neg (not_not_intro rfl), if_neg (not_not_intro rfl),
    if_neg (by simp [hdist]), if_neg (not_not_intro hlen),
    if_neg (not_not_intro hB), if_neg (by norm_num : ¬ (1 : Nat) = 0),
    if_pos rfl, if_neg (not_not_intro hpos)]
  cases hloop : distributeLoop remaining esc.token_mint vault_ata
      (vaultAuthAddress (escrowAddress esc.owner esc.name))
      (B / (mode1Recipients esc target).length)
      (mode1Recipients esc target) with
  | error e =>
    intro hcontra
    have he := distributeLoop_error_is_missing_ata hloop
    subst he
    simp at hcontra
  | ok ops =>
    intro hcontra
    exact Except.noConfusion hcontra

/-- Witness for C10: the concrete full escrow, mode 1 with target 3 and
an empty remaining-accounts list: the recipient set has size 4 and even
this failing call does not return `InvalidMode`. -/
theorem c10_mode1_invalid_mode_unreachable_witness :
    (escFull.contributors.Nodup ∧ escFull.contributors.length = 5 ∧
      escFull.distributed = false ∧ 0 < 25) ∧
    ((mode1Recipients escFull (Pubkey.key 3)).length = 4 ∨
      (mode1Recipients escFull (Pubkey.key 3)).length = 5) ∧
    ¬ distribute escFull (Pubkey.key 0) "pool" 1 (Pubkey.key 3) 25
        (Pubkey.key 90) [] =
        Except.error (ProgError.escrow EscrowError.InvalidMode) := by
  have h := c10_mode1_invalid_mode_unreachable escFull (Pubkey.key 3)
    (Pubkey.key 90) 25 [] (by decide) (by decide) (by decide) (by decide)
  exact ⟨⟨by decide, by decide, by decide, by decide⟩, h.1, h.2.2⟩

end BonkEscrow
